import Mathlib

/-!
Verification development for the smartnode prelaunch-minipool staking task
(`rocketpool/node/stake-minipools.go`).

The Go driver has four functions:

* `getPrelaunchMinipools`: lists the node's minipool addresses, builds one
  minipool contract binding per address, fans out one concurrent status query
  per minipool into a fixed-size `statuses` array joined by `errgroup.Wait`,
  and filters the minipools whose status is `Prelaunch`.
* `stakePrelaunchMinipools`: one cycle — wait for client sync, resolve the
  node account, aggregate, log the count when nonzero, and dispatch
  `stakeMinipool` sequentially with per-entity error logging.
* `startStakePrelaunchMinipools`: three synchronous setup calls, then a
  detached infinite loop of cycle-then-sleep.
* `stakeMinipool`: the action stub (logs and returns success unconditionally).

The embedding below is shallow: the external collaborators (ledger gateway,
readiness waits, account manager) are fields of explicit environment records,
global log output is returned as an explicit list of log lines, and the
detached loop is rendered as the list of events of its first `n` iterations.
Go's `(value, error)` multiple returns become `value × Option String` pairs,
so the claim that an error is accompanied by an empty list is directly
statable.  The concurrent fan-out is additionally given an interleaving
semantics (`applyTask` / `runSchedule`) to settle the data-race claims.
-/

namespace SmartNode

/-- Lifecycle status enumeration mirroring `types.MinipoolStatus` from
rocketpool-go.  Go's zero value for the enum corresponds to `Initialized`,
which is what an untouched `statuses` slot holds. -/
inductive MinipoolStatus where
  | Initialized
  | Prelaunch
  | Staking
  | Staked
  | Withdrawable
  | Dissolved
deriving DecidableEq, Repr, Inhabited

/-- A minipool contract binding, as produced by `minipool.NewMinipool`:
the only observable attribute used by the driver is its address
(modelled as a `Nat`). -/
structure Minipool where
  address : Nat
deriving DecidableEq, Repr

/-- The ledger query gateway seen by `getPrelaunchMinipools`:
`minipool.GetNodeMinipoolAddresses`, the fallible part of
`minipool.NewMinipool` (on success the binding's address is the requested
address), and `mp.GetStatus()` keyed by the minipool's address. -/
structure Ledger where
  getNodeMinipoolAddresses : Nat → Except String (List Nat)
  newMinipoolErr : Nat → Option String
  getStatus : Nat → Except String MinipoolStatus

/-- Whether the status query for minipool `mp` succeeds. -/
def queryOk (L : Ledger) (mp : Minipool) : Bool :=
  match L.getStatus mp.address with
  | .ok _ => true
  | .error _ => false

/-- The `minipools` construction loop of `getPrelaunchMinipools`: one
`NewMinipool` call per discovered address, aborting with the first error
in index order. -/
def createMinipools (L : Ledger) : List Nat → Except String (List Minipool)
  | [] => .ok []
  | a :: rest =>
    match L.newMinipoolErr a with
    | some e => .error e
    | none =>
      match createMinipools L rest with
      | .error e => .error e
      | .ok mps => .ok (⟨a⟩ :: mps)

/-- The value a successful status query stores in its slot; a failed query
leaves the slot at Go's zero value `Initialized` (the `if err == nil` guard
in the fan-out closure). -/
def statusValue (L : Ledger) (mp : Minipool) : MinipoolStatus :=
  match L.getStatus mp.address with
  | .ok s => s
  | .error _ => .Initialized

/-- The `statuses` array as it stands after the `errgroup.Wait` barrier:
slot `i` holds the status reported by query `i` when that query succeeded. -/
def statusesArray (L : Ledger) (mps : List Minipool) : List MinipoolStatus :=
  mps.map (statusValue L)

/-- The first error among the fan-out query results, in index order.
`errgroup.Wait` returns some failed query's error (nondeterministically the
first to complete); the model picks the first in index order — every claim
depends only on whether an error exists, never on which one. -/
def firstError (L : Ledger) : List Minipool → Option String
  | [] => none
  | mp :: rest =>
    match L.getStatus mp.address with
    | .error e => some e
    | .ok _ => firstError L rest

/-- The filter loop of `getPrelaunchMinipools`: walk `minipools` and
`statuses` in lockstep, keeping the minipools whose slot reads `Prelaunch`. -/
def filterPrelaunch : List Minipool → List MinipoolStatus → List Minipool
  | mp :: mps, s :: ss =>
    if s = .Prelaunch then mp :: filterPrelaunch mps ss else filterPrelaunch mps ss
  | _, _ => []

/-- Shallow embedding of `getPrelaunchMinipools(rp, nodeAddress)`.
Returns the Go pair `([]*minipool.Minipool, error)` as
`List Minipool × Option String`. -/
def getPrelaunchMinipools (L : Ledger) (nodeAddress : Nat) :
    List Minipool × Option String :=
  match L.getNodeMinipoolAddresses nodeAddress with
  | .error e => ([], some e)
  | .ok addresses =>
    match createMinipools L addresses with
    | .error e => ([], some e)
    | .ok minipools =>
      match firstError L minipools with
      | some e => ([], some e)
      | none => (filterPrelaunch minipools (statusesArray L minipools), none)

/-- One log line emitted by the driver, one constructor per `log.*` call site:
the loop's `log.Println(err)`, the `"%d minipools are ready for staking..."`
count, the `"Could not stake minipool %s: %w"` failure line, and the three
lines of the `stakeMinipool` stub. -/
inductive LogLine where
  | loopError (e : String)
  | readyCount (n : Nat)
  | stakeFailed (addr : Nat) (e : String)
  | stakingMinipool (addr : Nat)
  | notImplemented
  | stakedMinipool (addr : Nat)
deriving DecidableEq, Repr

/-- Shallow embedding of the `stakeMinipool` stub.  The Go function also
receives the account manager but never uses it; the stub logs the start
line, the "not implemented" line and the success line, and returns `nil`
unconditionally.  Result is `(log lines, error)`. -/
def stakeMinipool (mp : Minipool) : List LogLine × Option String :=
  ([.stakingMinipool mp.address, .notImplemented, .stakedMinipool mp.address], none)

/-- The log line the dispatch loop emits when an action invocation fails:
`"Could not stake minipool <addr>: <err>"`; nothing on success. -/
def failLine (mp : Minipool) : Option String → List LogLine
  | some e => [.stakeFailed mp.address e]
  | none => []

/-- The sequential dispatch loop of `stakePrelaunchMinipools`
(`for _, mp := range minipools { if err := stakeMinipool(am, mp); ... }`),
parametrised by the action so that its structure — attempt every entity,
log a failure and continue — is stated independently of the stub's
behaviour.  Produces the concatenated log output. -/
def dispatchMinipools (action : Minipool → List LogLine × Option String) :
    List Minipool → List LogLine
  | [] => []
  | mp :: rest =>
    (action mp).1 ++ failLine mp (action mp).2 ++ dispatchMinipools action rest

/-- The per-cycle environment of `stakePrelaunchMinipools`:
`services.WaitClientSynced` (`none` = synced), `am.GetNodeAccount()`
(the node account's address on success), and the ledger gateway. -/
structure CycleEnv where
  waitClientSynced : Option String
  getNodeAccount : Except String Nat
  ledger : Ledger

/-- Shallow embedding of one cycle, `stakePrelaunchMinipools`, with the
dispatched action as a parameter.  Result is `(log lines, error)`: errors
from the sync wait, the account lookup and the aggregation are returned
before any logging; an empty filtered set returns silently; otherwise the
count line is logged and the dispatch loop runs. -/
def stakePrelaunchMinipoolsWith (action : Minipool → List LogLine × Option String)
    (env : CycleEnv) : List LogLine × Option String :=
  match env.waitClientSynced with
  | some e => ([], some e)
  | none =>
    match env.getNodeAccount with
    | .error e => ([], some e)
    | .ok nodeAddress =>
      match getPrelaunchMinipools env.ledger nodeAddress with
      | (_, some e) => ([], some e)
      | (minipools, none) =>
        if minipools.length = 0 then ([], none)
        else
          (LogLine.readyCount minipools.length :: dispatchMinipools action minipools,
           none)

/-- The cycle as wired in the source: `stakePrelaunchMinipools` dispatches
the concrete `stakeMinipool` stub. -/
def stakePrelaunchMinipools (env : CycleEnv) : List LogLine × Option String :=
  stakePrelaunchMinipoolsWith stakeMinipool env

/-- An observable event of the detached loop: a log line or one
`time.Sleep(stakePrelaunchMinipoolsInterval)` call. -/
inductive Event where
  | log (l : LogLine)
  | sleep
deriving DecidableEq, Repr

/-- The events of one iteration of the loop body: run the cycle, log its
error through `log.Println(err)` if it returned one, then sleep once. -/
def cycleTrace (env : CycleEnv) : List Event :=
  match stakePrelaunchMinipools env with
  | (logs, some e) => logs.map Event.log ++ [Event.log (.loopError e), Event.sleep]
  | (logs, none) => logs.map Event.log ++ [Event.sleep]

/-- The events of the first `n` iterations of the detached `for` loop; the
per-cycle environment may change between iterations (the ledger is
re-queried from scratch each cycle). -/
def runCycles (envs : Nat → CycleEnv) : Nat → List Event
  | 0 => []
  | n + 1 => runCycles envs n ++ cycleTrace (envs n)

/-- The synchronous setup dependencies of `startStakePrelaunchMinipools`:
`services.WaitNodeRegistered`, `services.GetAccountManager` and
`services.GetRocketPool`, each recorded by its error (`none` = success;
the successful values feed the cycle environments). -/
structure StartEnv where
  waitNodeRegistered : Option String
  getAccountManager : Option String
  getRocketPool : Option String

/-- Shallow embedding of `startStakePrelaunchMinipools`.  The first
component is the function's synchronous return value; the second is the
trace of the first `n` iterations of the detached goroutine loop (empty
when a setup step failed, because then the loop is never started). -/
def startStakePrelaunchMinipools (s : StartEnv) (envs : Nat → CycleEnv) (n : Nat) :
    Option String × List Event :=
  match s.waitNodeRegistered with
  | some e => (some e, [])
  | none =>
    match s.getAccountManager with
    | some e => (some e, [])
    | none =>
      match s.getRocketPool with
      | some e => (some e, [])
      | none => (none, runCycles envs n)

/-- Interleaving semantics for the concurrent fan-out: the single write step
of the goroutine for index `i` — `if err == nil { statuses[mi] = status }`.
A failed query writes nothing; a successful one sets exactly slot `i`. -/
def applyTask (L : Ledger) (mps : List Minipool) (arr : List MinipoolStatus)
    (i : Nat) : List MinipoolStatus :=
  match mps[i]? with
  | none => arr
  | some mp =>
    match L.getStatus mp.address with
    | .ok s => arr.set i s
    | .error _ => arr

/-- Execution of the fan-out's write steps in an arbitrary completion order
`sched` (a list of task indices), starting from array `arr`. -/
def runSchedule (L : Ledger) (mps : List Minipool) :
    List Nat → List MinipoolStatus → List MinipoolStatus
  | [], arr => arr
  | i :: rest, arr => runSchedule L mps rest (applyTask L mps arr i)

/-- The `statuses` array as allocated by
`make([]types.MinipoolStatus, len(minipools))`: every slot at Go's zero
value `Initialized`. -/
def initArray (n : Nat) : List MinipoolStatus :=
  List.replicate n .Initialized

/-- A concrete ledger for witnesses: owner `7` owns minipools `1`, `2`, `3`
with statuses `Prelaunch`, `Staking`, `Prelaunch`; every other owner owns
nothing. -/
def demoLedger : Ledger where
  getNodeMinipoolAddresses := fun a => if a = 7 then .ok [1, 2, 3] else .ok []
  newMinipoolErr := fun _ => none
  getStatus := fun a =>
    if a = 1 then .ok .Prelaunch
    else if a = 2 then .ok .Staking
    else if a = 3 then .ok .Prelaunch
    else .error "unknown minipool"

/-- A second gateway value that relays every query to `demoLedger`:
extensionally the unchanged ledger, used to state idempotence of two
successive aggregation runs. -/
def demoLedgerAgain : Ledger where
  getNodeMinipoolAddresses := fun a => demoLedger.getNodeMinipoolAddresses a
  newMinipoolErr := fun a => demoLedger.newMinipoolErr a
  getStatus := fun a => demoLedger.getStatus a

/-- A ledger whose status query fails for minipool `2`: owner `7` owns
`1`, `2`, `3` but the fan-out query for `2` errors. -/
def errLedger : Ledger where
  getNodeMinipoolAddresses := fun a => if a = 7 then .ok [1, 2, 3] else .ok []
  newMinipoolErr := fun _ => none
  getStatus := fun a =>
    if a = 2 then .error "network failure"
    else .ok .Prelaunch

/-- A healthy per-cycle environment over `demoLedger` for node account `7`. -/
def demoEnv : CycleEnv where
  waitClientSynced := none
  getNodeAccount := .ok 7
  ledger := demoLedger

/-- A cycle environment whose readiness wait fails. -/
def unsyncedEnv : CycleEnv where
  waitClientSynced := some "eth client not synced"
  getNodeAccount := .ok 7
  ledger := demoLedger

/-- A cycle environment whose aggregation stage fails (status query error). -/
def aggFailEnv : CycleEnv where
  waitClientSynced := none
  getNodeAccount := .ok 7
  ledger := errLedger

/-- The `errgroup.Wait` join reports no error exactly when every fan-out
query succeeded. -/
theorem firstError_eq_none_iff (L : Ledger) (mps : List Minipool) :
    firstError L mps = none ↔ ∀ mp ∈ mps, queryOk L mp = true := by
  induction mps with
  | nil => simp [firstError]
  | cons mp rest ih =>
    cases h : L.getStatus mp.address with
    | error e =>
      simp only [firstError, h, List.mem_cons]
      constructor
      · intro hc; exact absurd hc (by simp)
      · intro hall
        have hq := hall mp (Or.inl rfl)
        rw [queryOk, h] at hq
        exact absurd hq (by simp)
    | ok s =>
      simp only [firstError, h, List.mem_cons]
      rw [ih]
      constructor
      · intro hall x hx
        cases hx with
        | inl hx => subst hx; rw [queryOk, h]
        | inr hx => exact hall x hx
      · intro hall x hx
        exact hall x (Or.inr hx)

/-- Whether the status query for `mp` succeeded with answer `Prelaunch` —
the condition under which the filter loop keeps `mp`. -/
def isPrelaunchOk (L : Ledger) (mp : Minipool) : Bool :=
  match L.getStatus mp.address with
  | .ok .Prelaunch => true
  | _ => false

/-- The boolean keep-condition holds exactly when the query answered
`Prelaunch`. -/
theorem isPrelaunchOk_iff (L : Ledger) (mp : Minipool) :
    isPrelaunchOk L mp = true ↔ L.getStatus mp.address = .ok .Prelaunch := by
  rw [isPrelaunchOk]
  cases h : L.getStatus mp.address with
  | error e => simp
  | ok s => cases s <;> simp

/-- The filter loop over the joined `statuses` array keeps exactly the
minipools whose status query answered `Prelaunch` (a failed query's slot
holds `Initialized` and is never kept). -/
theorem filterPrelaunch_statusesArray (L : Ledger) (mps : List Minipool) :
    filterPrelaunch mps (statusesArray L mps) = mps.filter (isPrelaunchOk L) := by
  induction mps with
  | nil => rfl
  | cons mp rest ih =>
    simp only [statusesArray, List.map_cons, filterPrelaunch, List.filter_cons]
    cases h : L.getStatus mp.address with
    | error e =>
      rw [show statusValue L mp = .Initialized from by rw [statusValue, h]]
      rw [show isPrelaunchOk L mp = false from by rw [isPrelaunchOk, h]]
      simp only [statusesArray] at ih
      simp [ih]
    | ok s =>
      rw [show statusValue L mp = s from by rw [statusValue, h]]
      simp only [statusesArray] at ih
      by_cases hs : s = .Prelaunch
      · subst hs
        rw [show isPrelaunchOk L mp = true from by rw [isPrelaunchOk, h]]
        simp [ih]
      · rw [show isPrelaunchOk L mp = false from by
          rw [isPrelaunchOk, h]; cases s <;> simp_all]
        simp [hs, ih]

/-- C1.  All-or-nothing aggregation: whenever `getPrelaunchMinipools`
returns an error the accompanying minipool list is empty (never a partial
filtered result); a failed address listing yields that error with the empty
list; and if any single status query of a successfully discovered set fails,
the whole call returns an error (with the empty list, by the first part). -/
theorem getPrelaunchMinipools_all_or_nothing (L : Ledger) (a : Nat) :
    (∀ e, (getPrelaunchMinipools L a).2 = some e →
      (getPrelaunchMinipools L a).1 = []) ∧
    (∀ e, L.getNodeMinipoolAddresses a = .error e →
      getPrelaunchMinipools L a = ([], some e)) ∧
    (∀ addrs mps, L.getNodeMinipoolAddresses a = .ok addrs →
      createMinipools L addrs = .ok mps →
      (∃ mp ∈ mps, queryOk L mp = false) →
      ∃ e, getPrelaunchMinipools L a = ([], some e)) := by
  refine ⟨?_, ?_, ?_⟩
  · intro e he
    unfold getPrelaunchMinipools at he ⊢
    cases h1 : L.getNodeMinipoolAddresses a with
    | error e1 => simp [h1]
    | ok addrs =>
      cases h2 : createMinipools L addrs with
      | error e2 => simp [h1, h2]
      | ok mps =>
        cases h3 : firstError L mps with
        | some e3 => simp [h1, h2, h3]
        | none => simp [h1, h2, h3] at he
  · intro e he
    simp [getPrelaunchMinipools, he]
  · intro addrs mps hA hC hbad
    cases h3 : firstError L mps with
    | none =>
      obtain ⟨mp, hmem, hq⟩ := hbad
      have hall := (firstError_eq_none_iff L mps).mp h3 mp hmem
      rw [hall] at hq
      exact absurd hq (by simp)
    | some e =>
      exact ⟨e, by simp [getPrelaunchMinipools, hA, hC, h3]⟩

/-- C1 witness: on `errLedger` (owner `7`, three minipools, the query for
minipool `2` fails) the aggregation returns an error and the empty list. -/
theorem getPrelaunchMinipools_all_or_nothing_witness :
    ∃ e, getPrelaunchMinipools errLedger 7 = ([], some e) :=
  (getPrelaunchMinipools_all_or_nothing errLedger 7).2.2 [1, 2, 3]
    [⟨1⟩, ⟨2⟩, ⟨3⟩] rfl rfl ⟨⟨2⟩, by decide, by decide⟩

/-- C2.  Filter correctness: when discovery, contract construction and every
status query succeed, `getPrelaunchMinipools` returns, with no error,
exactly the discovered minipools whose queried status is `Prelaunch` —
every minipool whose status differs is excluded, wherever it sits in the
discovery order. -/
theorem getPrelaunchMinipools_filter_correct (L : Ledger) (a : Nat)
    (addrs : List Nat) (mps : List Minipool)
    (hA : L.getNodeMinipoolAddresses a = .ok addrs)
    (hC : createMinipools L addrs = .ok mps)
    (hS : ∀ mp ∈ mps, queryOk L mp = true) :
    getPrelaunchMinipools L a = (mps.filter (isPrelaunchOk L), none) ∧
    (∀ mp, isPrelaunchOk L mp = true ↔ L.getStatus mp.address = .ok .Prelaunch) := by
  constructor
  · have hfe : firstError L mps = none := (firstError_eq_none_iff L mps).mpr hS
    simp only [getPrelaunchMinipools, hA, hC, hfe]
    rw [filterPrelaunch_statusesArray]
  · intro mp
    exact isPrelaunchOk_iff L mp

/-- C2 witness: the three demo minipools have statuses `[Prelaunch, Staking,
Prelaunch]` and the aggregation returns precisely the first and third. -/
theorem getPrelaunchMinipools_filter_correct_witness :
    getPrelaunchMinipools demoLedger 7 = ([⟨1⟩, ⟨3⟩], none) := by
  have h := (getPrelaunchMinipools_filter_correct demoLedger 7 [1, 2, 3]
    [⟨1⟩, ⟨2⟩, ⟨3⟩] rfl rfl (by decide)).1
  exact h.trans (by decide)

/-- C7.  Empty-owner case: when the address listing answers with zero
addresses, `getPrelaunchMinipools` returns the empty list and no error. -/
theorem getPrelaunchMinipools_empty_owner (L : Ledger) (a : Nat)
    (h : L.getNodeMinipoolAddresses a = .ok []) :
    getPrelaunchMinipools L a = ([], none) := by
  simp [getPrelaunchMinipools, h, createMinipools, firstError, statusesArray,
    filterPrelaunch]

/-- C7 witness: owner `5` owns nothing on `demoLedger`. -/
theorem getPrelaunchMinipools_empty_owner_witness :
    getPrelaunchMinipools demoLedger 5 = ([], none) :=
  getPrelaunchMinipools_empty_owner demoLedger 5 rfl

/-- Two gateways whose `NewMinipool` errors agree build the same contract
bindings. -/
theorem createMinipools_congr (L₁ L₂ : Ledger)
    (h : ∀ x, L₁.newMinipoolErr x = L₂.newMinipoolErr x) :
    ∀ l, createMinipools L₁ l = createMinipools L₂ l := by
  intro l
  induction l with
  | nil => rfl
  | cons a rest ih => simp only [createMinipools, h a, ih]

/-- Two gateways whose status queries agree produce the same join error. -/
theorem firstError_congr (L₁ L₂ : Ledger)
    (h : ∀ x, L₁.getStatus x = L₂.getStatus x) :
    ∀ mps, firstError L₁ mps = firstError L₂ mps := by
  intro mps
  induction mps with
  | nil => rfl
  | cons mp rest ih => simp only [firstError, h mp.address, ih]

/-- Two gateways whose status queries agree produce the same joined
`statuses` array. -/
theorem statusesArray_congr (L₁ L₂ : Ledger)
    (h : ∀ x, L₁.getStatus x = L₂.getStatus x) :
    ∀ mps, statusesArray L₁ mps = statusesArray L₂ mps := by
  intro mps
  induction mps with
  | nil => rfl
  | cons mp rest ih =>
    simp only [statusesArray, List.map_cons] at ih ⊢
    rw [ih, show statusValue L₁ mp = statusValue L₂ mp from by
      rw [statusValue, statusValue, h mp.address]]

/-- C8.  Idempotence: two successive aggregation runs against a gateway
that answers identically (same address list for the owner, same
per-address `NewMinipool` and status answers) return the same filtered
minipool set and the same error. -/
theorem getPrelaunchMinipools_idempotent (L₁ L₂ : Ledger) (a : Nat)
    (h1 : L₁.getNodeMinipoolAddresses a = L₂.getNodeMinipoolAddresses a)
    (h2 : ∀ x, L₁.newMinipoolErr x = L₂.newMinipoolErr x)
    (h3 : ∀ x, L₁.getStatus x = L₂.getStatus x) :
    getPrelaunchMinipools L₁ a = getPrelaunchMinipools L₂ a := by
  unfold getPrelaunchMinipools
  rw [h1]
  cases L₂.getNodeMinipoolAddresses a with
  | error e => rfl
  | ok addrs =>
    dsimp only
    rw [createMinipools_congr L₁ L₂ h2 addrs]
    cases createMinipools L₂ addrs with
    | error e => rfl
    | ok mps =>
      dsimp only
      rw [firstError_congr L₁ L₂ h3 mps, statusesArray_congr L₁ L₂ h3 mps]

/-- C8 witness: a second run through the relay gateway `demoLedgerAgain`
returns the same result as the first run on `demoLedger`. -/
theorem getPrelaunchMinipools_idempotent_witness :
    getPrelaunchMinipools demoLedger 7 = getPrelaunchMinipools demoLedgerAgain 7 :=
  getPrelaunchMinipools_idempotent demoLedger demoLedgerAgain 7 rfl
    (fun _ => rfl) (fun _ => rfl)

/-- C3.  Per-entity error isolation: however the action behaves on the
entities before `mp` in the filtered list, the dispatch loop still invokes
the action on `mp` (its log output appears, followed by its failure line
when it errors) and then dispatches every remaining entity, in list order;
and the failure line carries the failing entity's address. -/
theorem dispatchMinipools_isolation
    (action : Minipool → List LogLine × Option String)
    (pre : List Minipool) (mp : Minipool) (post : List Minipool) :
    (dispatchMinipools action (pre ++ mp :: post) =
      dispatchMinipools action pre ++
        ((action mp).1 ++ failLine mp (action mp).2 ++
          dispatchMinipools action post)) ∧
    (∀ e, failLine mp (some e) = [LogLine.stakeFailed mp.address e]) := by
  constructor
  · induction pre with
    | nil => rfl
    | cons p ps ih =>
      simp only [List.cons_append, dispatchMinipools, List.append_eq, ih,
        List.append_assoc]
  · intro e
    rfl

/-- The dispatch loop wired to the stub never emits the count line (used to
show the count line can only come from the nonempty-set branch). -/
theorem readyCount_not_in_dispatch (mps : List Minipool) (n : Nat) :
    LogLine.readyCount n ∉ dispatchMinipools stakeMinipool mps := by
  induction mps with
  | nil => simp [dispatchMinipools]
  | cons mp rest ih => simp [dispatchMinipools, stakeMinipool, failLine, ih]

/-- C10.  The action stub returns success for every minipool after logging
its three lines unconditionally, so the dispatch loop wired to it never
emits the `"Could not stake minipool"` failure line, and every dispatched
minipool gets the `"Successfully staked"` line even though no staking
occurs. -/
theorem stakeMinipool_stub_unconditional :
    (∀ mp, stakeMinipool mp =
      ([.stakingMinipool mp.address, .notImplemented, .stakedMinipool mp.address],
       none)) ∧
    (∀ mps a e, LogLine.stakeFailed a e ∉ dispatchMinipools stakeMinipool mps) ∧
    (∀ mps mp, mp ∈ mps →
      LogLine.stakedMinipool mp.address ∈ dispatchMinipools stakeMinipool mps) := by
  refine ⟨fun mp => rfl, ?_, ?_⟩
  · intro mps a e
    induction mps with
    | nil => simp [dispatchMinipools]
    | cons mp rest ih => simp [dispatchMinipools, stakeMinipool, failLine, ih]
  · intro mps mp hmem
    induction mps with
    | nil => cases hmem
    | cons p rest ih =>
      simp only [dispatchMinipools, stakeMinipool, failLine, List.append_nil]
      rcases List.mem_cons.mp hmem with h | h
      · subst h
        simp
      · simp [ih h]

/-- C10 witness: dispatching the single minipool `1` through the stub
reports it as successfully staked. -/
theorem stakeMinipool_stub_unconditional_witness :
    LogLine.stakedMinipool 1 ∈ dispatchMinipools stakeMinipool [⟨1⟩] :=
  stakeMinipool_stub_unconditional.2.2 [⟨1⟩] ⟨1⟩ (by decide)

/-- C6.  Silent skip on empty result: a cycle whose aggregation succeeds
with an empty filtered set returns success with no log line at all, and the
count line `readyCount n` can only ever appear with a nonzero count. -/
theorem stakePrelaunchMinipools_silent_when_empty (env : CycleEnv) :
    (∀ acct, env.waitClientSynced = none → env.getNodeAccount = .ok acct →
      getPrelaunchMinipools env.ledger acct = ([], none) →
      stakePrelaunchMinipools env = ([], none)) ∧
    (∀ n, LogLine.readyCount n ∈ (stakePrelaunchMinipools env).1 → 0 < n) := by
  constructor
  · intro acct hw hn hg
    simp [stakePrelaunchMinipools, stakePrelaunchMinipoolsWith, hw, hn, hg]
  · intro n hmem
    unfold stakePrelaunchMinipools stakePrelaunchMinipoolsWith at hmem
    cases hw : env.waitClientSynced with
    | some e => simp [hw] at hmem
    | none =>
      simp only [hw] at hmem
      cases hn : env.getNodeAccount with
      | error e => simp [hn] at hmem
      | ok acct =>
        simp only [hn] at hmem
        rcases hg : getPrelaunchMinipools env.ledger acct with ⟨mps, err⟩
        rw [hg] at hmem
        cases err with
        | some e => simp at hmem
        | none =>
          by_cases hlen : mps.length = 0
          · simp [hlen] at hmem
          · simp only [hlen, if_false, List.mem_cons] at hmem
            rcases hmem with h | h
            · rw [LogLine.readyCount.injEq] at h
              rw [h]
              exact Nat.pos_of_ne_zero hlen
            · exact absurd h (readyCount_not_in_dispatch mps n)

/-- C6 witness: the cycle for account `5` (which owns nothing) returns
success with an empty log, and the count the demo cycle logs is nonzero. -/
theorem stakePrelaunchMinipools_silent_when_empty_witness :
    stakePrelaunchMinipools ⟨none, Except.ok 5, demoLedger⟩ = ([], none) ∧ 0 < 2 :=
  ⟨(stakePrelaunchMinipools_silent_when_empty ⟨none, .ok 5, demoLedger⟩).1 5
      rfl rfl (by decide),
   (stakePrelaunchMinipools_silent_when_empty demoEnv).2 2 (by decide)⟩

/-- The first error among the three synchronous setup calls of
`startStakePrelaunchMinipools`, in source order — what the function
returns to its caller. -/
def startupError (s : StartEnv) : Option String :=
  match s.waitNodeRegistered with
  | some e => some e
  | none =>
    match s.getAccountManager with
    | some e => some e
    | none => s.getRocketPool

/-- Number of `time.Sleep` calls in an event trace. -/
def countSleeps : List Event → Nat
  | [] => 0
  | Event.sleep :: t => countSleeps t + 1
  | Event.log _ :: t => countSleeps t

/-- Log lines contribute no sleeps. -/
theorem countSleeps_map_log (l : List LogLine) :
    countSleeps (l.map Event.log) = 0 := by
  induction l with
  | nil => rfl
  | cons x t ih => simp [countSleeps, ih]

/-- Sleep counting distributes over trace concatenation. -/
theorem countSleeps_append (a b : List Event) :
    countSleeps (a ++ b) = countSleeps a + countSleeps b := by
  induction a with
  | nil => simp [countSleeps]
  | cons x t ih =>
    cases x with
    | log l => simp [countSleeps, ih]
    | sleep =>
      simp only [List.cons_append, countSleeps, List.append_eq, ih]
      omega

/-- C4 counterexample to the claim as stated: when the synchronous
node-registration wait fails, `startStakePrelaunchMinipools` surfaces that
inner-layer error directly to its caller (the return value is the error,
not `nil`) and the detached loop never begins (its trace is empty), so the
error terminates at the caller, not in the log sink. -/
theorem startStakePrelaunchMinipools_surfaces_setup_error :
    (startStakePrelaunchMinipools ⟨some "node not registered", none, none⟩
      (fun _ => demoEnv) 1).1 = some "node not registered" ∧
    (startStakePrelaunchMinipools ⟨some "node not registered", none, none⟩
      (fun _ => demoEnv) 1).2 = [] :=
  ⟨rfl, rfl⟩

/-- C4 amended.  The synchronous return value of
`startStakePrelaunchMinipools` is exactly the first error of its three
setup calls — in particular it never depends on the cycle environments or
on how many loop iterations run, so no per-cycle error is ever surfaced
synchronously and the caller is never blocked on a cycle's completion.
When setup succeeds the function returns `nil` and the loop runs detached;
when a setup step fails the error is returned and the loop never starts. -/
theorem startStakePrelaunchMinipools_detached (s : StartEnv)
    (envs : Nat → CycleEnv) (n : Nat) :
    (startStakePrelaunchMinipools s envs n).1 = startupError s ∧
    (startupError s = none →
      startStakePrelaunchMinipools s envs n = (none, runCycles envs n)) ∧
    (∀ e, startupError s = some e →
      startStakePrelaunchMinipools s envs n = (some e, [])) := by
  rcases s with ⟨w, g, r⟩
  unfold startStakePrelaunchMinipools startupError
  cases w with
  | some e => simp
  | none =>
    cases g with
    | some e => simp
    | none =>
      cases r with
      | some e => simp
      | none => simp

/-- C4 witness: with all three setup steps succeeding, start returns `nil`
and the detached loop's first iteration runs. -/
theorem startStakePrelaunchMinipools_detached_witness :
    startStakePrelaunchMinipools ⟨none, none, none⟩ (fun _ => demoEnv) 1 =
      (none, runCycles (fun _ => demoEnv) 1) :=
  (startStakePrelaunchMinipools_detached ⟨none, none, none⟩
    (fun _ => demoEnv) 1).2.1 rfl

/-- C5.  Loop liveness: every iteration of the detached loop performs
exactly one sleep; a cycle that fails at the readiness check logs exactly
that error and sleeps; a cycle that fails at the aggregation stage logs
exactly that error and sleeps; and after any iteration the loop runs the
next one — iteration `n + 1`'s trace extends iteration `n`'s, never
terminating on a cycle failure. -/
theorem loop_liveness (envs : Nat → CycleEnv) (n : Nat) :
    countSleeps (cycleTrace (envs n)) = 1 ∧
    (∀ e, (envs n).waitClientSynced = some e →
      cycleTrace (envs n) = [.log (.loopError e), .sleep]) ∧
    (∀ acct e, (envs n).waitClientSynced = none →
      (envs n).getNodeAccount = .ok acct →
      (getPrelaunchMinipools (envs n).ledger acct).2 = some e →
      cycleTrace (envs n) = [.log (.loopError e), .sleep]) ∧
    runCycles envs (n + 1) = runCycles envs n ++ cycleTrace (envs n) := by
  refine ⟨?_, ?_, ?_, rfl⟩
  · unfold cycleTrace
    rcases h : stakePrelaunchMinipools (envs n) with ⟨logs, err⟩
    cases err with
    | some e =>
      dsimp only
      rw [countSleeps_append, countSleeps_map_log]
      rfl
    | none =>
      dsimp only
      rw [countSleeps_append, countSleeps_map_log]
      rfl
  · intro e hw
    have hs : stakePrelaunchMinipools (envs n) = ([], some e) := by
      simp [stakePrelaunchMinipools, stakePrelaunchMinipoolsWith, hw]
    simp [cycleTrace, hs]
  · intro acct e hw hn hsnd
    rcases hg : getPrelaunchMinipools (envs n).ledger acct with ⟨mps, err⟩
    rw [hg] at hsnd
    dsimp only at hsnd
    subst hsnd
    have hs : stakePrelaunchMinipools (envs n) = ([], some e) := by
      simp [stakePrelaunchMinipools, stakePrelaunchMinipoolsWith, hw, hn, hg]
    simp [cycleTrace, hs]

/-- C5 witness: a readiness-failure cycle and an aggregation-failure cycle
each yield exactly the one error log line and the one sleep. -/
theorem loop_liveness_witness :
    countSleeps (cycleTrace unsyncedEnv) = 1 ∧
    cycleTrace unsyncedEnv = [.log (.loopError "eth client not synced"), .sleep] ∧
    cycleTrace aggFailEnv = [.log (.loopError "network failure"), .sleep] :=
  ⟨(loop_liveness (fun _ => unsyncedEnv) 0).1,
   (loop_liveness (fun _ => unsyncedEnv) 0).2.1 "eth client not synced" rfl,
   (loop_liveness (fun _ => aggFailEnv) 0).2.2.1 7 "network failure" rfl rfl
     (by decide)⟩

/-- The value (if any) task `i` of the fan-out writes into its slot:
`some s` when its query succeeds with status `s`, `none` when the query
fails or `i` is out of range. -/
def taskWrite (L : Ledger) (mps : List Minipool) (i : Nat) :
    Option MinipoolStatus :=
  match mps[i]? with
  | some mp =>
    match L.getStatus mp.address with
    | .ok s => some s
    | .error _ => none
  | none => none

/-- A task's write step never changes the array length. -/
theorem applyTask_length (L : Ledger) (mps : List Minipool)
    (arr : List MinipoolStatus) (i : Nat) :
    (applyTask L mps arr i).length = arr.length := by
  unfold applyTask
  cases hm : mps[i]? with
  | none => rfl
  | some mp =>
    cases hs : L.getStatus mp.address with
    | ok s => simp [hs]
    | error e => simp [hs]

/-- Pointwise effect of task `i`'s write step: slot `i` receives the
task's write when there is one; every other slot — and slot `i` itself
when the query failed — is untouched. -/
theorem applyTask_getElem (L : Ledger) (mps : List Minipool)
    (arr : List MinipoolStatus) (harr : arr.length = mps.length)
    (i j : Nat) :
    (applyTask L mps arr i)[j]? =
      if j = i ∧ (taskWrite L mps i).isSome then taskWrite L mps i
      else arr[j]? := by
  by_cases hj : j = i
  · subst hj
    unfold applyTask taskWrite
    cases hm : mps[j]? with
    | none => simp
    | some mp =>
      cases hs : L.getStatus mp.address with
      | error e => simp [hs]
      | ok s =>
        obtain ⟨hlt, _⟩ := List.getElem?_eq_some.mp hm
        have hset : (arr.set j s)[j]? = some s := by
          rw [List.getElem?_set_self]
          simp [harr, hlt]
        simp [hs, hset]
  · unfold applyTask
    cases hm : mps[i]? with
    | none => simp [hj]
    | some mp =>
      cases hs : L.getStatus mp.address with
      | error e => simp [hs, hj]
      | ok s =>
        simp [hs, hj, List.getElem?_set_ne (Ne.symm hj)]

/-- Pointwise result of executing the fan-out's writes in an arbitrary
completion order: a slot whose task appears in the schedule and wrote
holds that write; every other slot keeps its initial value. -/
theorem runSchedule_getElem (L : Ledger) (mps : List Minipool)
    (sched : List Nat) :
    ∀ arr : List MinipoolStatus, arr.length = mps.length → ∀ j : Nat,
      (runSchedule L mps sched arr)[j]? =
        if j ∈ sched ∧ (taskWrite L mps j).isSome then taskWrite L mps j
        else arr[j]? := by
  induction sched with
  | nil =>
    intro arr _ j
    simp [runSchedule]
  | cons i rest ih =>
    intro arr harr j
    have harr2 : (applyTask L mps arr i).length = mps.length := by
      rw [applyTask_length, harr]
    rw [show runSchedule L mps (i :: rest) arr =
        runSchedule L mps rest (applyTask L mps arr i) from rfl]
    rw [ih (applyTask L mps arr i) harr2 j]
    rw [applyTask_getElem L mps arr harr i j]
    by_cases h1 : j ∈ rest ∧ (taskWrite L mps j).isSome
    · simp [h1, List.mem_cons, h1.1, h1.2]
    · simp only [if_neg h1]
      by_cases h2 : j = i ∧ (taskWrite L mps i).isSome
      · obtain ⟨hji, hsome⟩ := h2
        subst hji
        simp [List.mem_cons, hsome]
      · simp only [if_neg h2]
        rw [if_neg]
        rintro ⟨hmem, hsome⟩
        rcases List.mem_cons.mp hmem with rfl | hr
        · exact h2 ⟨rfl, hsome⟩
        · exact h1 ⟨hr, hsome⟩

/-- Any completion order that runs every task produces exactly the joined
`statuses` array that `getPrelaunchMinipools` filters. -/
theorem runSchedule_covering (L : Ledger) (mps : List Minipool)
    (sched : List Nat) (hcov : ∀ j, j < mps.length → j ∈ sched) :
    runSchedule L mps sched (initArray mps.length) = statusesArray L mps := by
  apply List.ext_getElem?
  intro j
  have hlen : (initArray mps.length).length = mps.length := by
    simp [initArray]
  rw [runSchedule_getElem L mps sched (initArray mps.length) hlen j]
  by_cases hj : j < mps.length
  · have hmem := hcov j hj
    obtain ⟨mp, hm⟩ : ∃ mp, mps[j]? = some mp :=
      ⟨mps[j], List.getElem?_eq_some.mpr ⟨hj, rfl⟩⟩
    have hsa : (statusesArray L mps)[j]? = some (statusValue L mp) := by
      simp [statusesArray, hm]
    cases hs : L.getStatus mp.address with
    | ok s =>
      have htw : taskWrite L mps j = some s := by
        simp [taskWrite, hm, hs]
      have hsv : statusValue L mp = s := by
        rw [statusValue, hs]
      simp [hmem, htw, hsa, hsv]
    | error e =>
      have htw : taskWrite L mps j = none := by
        simp [taskWrite, hm, hs]
      have hsv : statusValue L mp = .Initialized := by
        rw [statusValue, hs]
      simp [htw, hsa, hsv, initArray, List.getElem?_replicate, hj]
  · have h1 : mps[j]? = none := List.getElem?_eq_none (le_of_not_lt hj)
    have htw : taskWrite L mps j = none := by
      simp [taskWrite, h1]
    have h2 : (initArray mps.length)[j]? = none := by
      apply List.getElem?_eq_none
      simp only [initArray, List.length_replicate]
      omega
    have h3 : (statusesArray L mps)[j]? = none := by
      apply List.getElem?_eq_none
      simp only [statusesArray, List.length_map]
      omega
    simp [htw, h2, h3]

/-- C9.  Write-once result slots: the fan-out task for index `i` leaves
every slot other than `i` untouched, performs no write at all when its own
query failed, and — whatever order the `N` tasks complete in, as long as
all of them have completed — the joined array the filter then reads is the
same `statusesArray`, the one `getPrelaunchMinipools` filters after the
`errgroup.Wait` barrier. -/
theorem fanout_write_once (L : Ledger) (mps : List Minipool) :
    (∀ arr i j, j ≠ i → (applyTask L mps arr i)[j]? = arr[j]?) ∧
    (∀ arr i mp, mps[i]? = some mp → queryOk L mp = false →
      applyTask L mps arr i = arr) ∧
    (∀ sched : List Nat, (∀ j, j < mps.length → j ∈ sched) →
      runSchedule L mps sched (initArray mps.length) = statusesArray L mps) := by
  refine ⟨?_, ?_, runSchedule_covering L mps⟩
  · intro arr i j hne
    unfold applyTask
    cases hm : mps[i]? with
    | none => rfl
    | some mp =>
      cases hs : L.getStatus mp.address with
      | ok s => simp [hs, List.getElem?_set_ne (Ne.symm hne)]
      | error e => simp [hs]
  · intro arr i mp hm hq
    unfold queryOk at hq
    cases hs : L.getStatus mp.address with
    | ok s =>
      rw [hs] at hq
      simp at hq
    | error e =>
      simp [applyTask, hm, hs]

/-- C9 witness: executing the three demo tasks in completion order
`2, 0, 1` yields exactly the joined statuses array. -/
theorem fanout_write_once_witness :
    runSchedule demoLedger [⟨1⟩, ⟨2⟩, ⟨3⟩] [2, 0, 1] (initArray 3) =
      statusesArray demoLedger [⟨1⟩, ⟨2⟩, ⟨3⟩] :=
  (fanout_write_once demoLedger [⟨1⟩, ⟨2⟩, ⟨3⟩]).2.2 [2, 0, 1] (by decide)

end SmartNode
